import Mathlib

/-!
Shallow embedding of the `parse-wholesale-file` serverless handler
(`supabase/functions/parse-wholesale-file/index.ts`): the value
normalizers, header matcher, column type profiler, header-row locator,
tabular extractor, AI-response validator, and the size-limit logic of
the request handler, together with theorems settling the specification
claims about them.

Strings are modelled by Lean `String`; JS `null`/`undefined` by
`Option`.  A JS number produced by coercing a decimal string is
modelled exactly as a scaled decimal `JsNum` (an integer mantissa and
a power-of-ten denominator): the handler only ever parses, compares
and truncates such values, and on those operations the decimal model
agrees with IEEE doubles for the magnitudes involved.  `JsNum.toRat`
maps the model into `ℚ` for readable statements.
-/

namespace ParseWholesale

/-- The character class of the JavaScript regex `\s` restricted to ASCII,
which is also what `String.prototype.trim` removes on the ASCII range. -/
def isJsSpace (c : Char) : Bool :=
  c = ' ' ∨ c = '\t' ∨ c = '\n' ∨ c = '\r' ∨ c = '\x0b' ∨ c = '\x0c'

/-- JS `String.prototype.trim` (ASCII whitespace). -/
def jsTrim (s : String) : String :=
  ⟨((s.data.dropWhile isJsSpace).reverse.dropWhile isJsSpace).reverse⟩

/-- JS `String.prototype.toLowerCase` on the ASCII range (the handler only
lowercases header words and product names when matching ASCII label sets). -/
def jsToLower (s : String) : String :=
  ⟨s.data.map Char.toLower⟩

/-- Substring occurrence on character lists (`pat` occurs inside the list). -/
def infixOfList (pat : List Char) : List Char → Bool
  | [] => pat.isEmpty
  | c :: cs => pat.isPrefixOf (c :: cs) || infixOfList pat cs

/-- JS `String.prototype.includes`: substring test. -/
def strContains (s pat : String) : Bool :=
  infixOfList pat.data s.data

/-- The regex test `/[a-zA-Z]/.test s`. -/
def hasLetter (s : String) : Bool :=
  s.data.any fun c => ('a' ≤ c ∧ c ≤ 'z') ∨ ('A' ≤ c ∧ c ≤ 'Z')

/-- Decimal digit run to a natural number. -/
def digitsToNat (l : List Char) : Nat :=
  l.foldl (fun a c => a * 10 + (c.toNat - 48)) 0

/-- Exact decimal value `mantissa / 10 ^ exp`, the result of coercing a
decimal string with JS `Number`. -/
structure JsNum where
  mantissa : Int
  exp : Nat
deriving DecidableEq, Repr

/-- The rational value denoted by a `JsNum`. -/
def JsNum.toRat (a : JsNum) : Rat :=
  (a.mantissa : Rat) / (10 : Rat) ^ a.exp

/-- Value comparison `a ≤ b` by cross-multiplication. -/
def JsNum.leb (a b : JsNum) : Bool :=
  a.mantissa * 10 ^ b.exp ≤ b.mantissa * 10 ^ a.exp

/-- Value comparison `a < b` by cross-multiplication. -/
def JsNum.ltb (a b : JsNum) : Bool :=
  a.mantissa * 10 ^ b.exp < b.mantissa * 10 ^ a.exp

/-- JS `Number(s)` on the decimal fragment the handler feeds it: an optional
sign, an integer part and an optional fractional part (call sites strip all
whitespace first, and the data never uses exponent or hex forms).
`none` models `NaN`; the empty string coerces to `0` as in JS. -/
def jsNumberCore (cs : List Char) : Option JsNum :=
  let signRest : Int × List Char :=
    match cs with
    | '-' :: r => (-1, r)
    | '+' :: r => (1, r)
    | r => (1, r)
  let sign := signRest.1
  let rest := signRest.2
  let intPart := rest.takeWhile Char.isDigit
  let rest2 := rest.dropWhile Char.isDigit
  match rest2 with
  | [] =>
    if intPart.isEmpty then none
    else some ⟨sign * (digitsToNat intPart : Int), 0⟩
  | '.' :: fr =>
    let fracPart := fr.takeWhile Char.isDigit
    let rest3 := fr.dropWhile Char.isDigit
    if ¬ rest3.isEmpty then none
    else if intPart.isEmpty ∧ fracPart.isEmpty then none
    else some ⟨sign * (digitsToNat (intPart ++ fracPart) : Int), fracPart.length⟩
  | _ => none

/-- JS `Number` coercion of a string (see `jsNumberCore`). -/
def jsNumber (s : String) : Option JsNum :=
  if s.data.isEmpty then some ⟨0, 0⟩ else jsNumberCore s.data

/-- `toNumber` (index.ts:68–75): trim, strip `,` `₹` `$` and whitespace,
coerce with `Number`; keep the value only when finite and `≥ 0`. -/
def toNumber (v : Option String) : Option JsNum :=
  match v with
  | none => none
  | some raw =>
    let s := jsTrim raw
    if s = "" then none
    else
      let cleaned : String := ⟨(s.data.filter fun c => ¬(c = ',' ∨ c = '₹' ∨ c = '$')).filter
        fun c => ¬ isJsSpace c⟩
      match jsNumber cleaned with
      | none => none
      | some n => if JsNum.leb ⟨0, 0⟩ n then some n else none

/-- JS `Math.trunc` on a `JsNum`: integer division toward zero. -/
def JsNum.trunc (a : JsNum) : Int :=
  a.mantissa.tdiv (10 ^ a.exp)

/-- `toInt` (index.ts:77–81): `toNumber` then `Math.trunc`. -/
def toInt (v : Option String) : Option Int :=
  match toNumber v with
  | none => none
  | some n => some n.trunc

/-- `toText` (index.ts:83–87): trim; empty becomes null. -/
def toText (v : Option String) : Option String :=
  match v with
  | none => none
  | some raw =>
    let s := jsTrim raw
    if s = "" then none else some s

/-- `looksLikeProductName` (index.ts:90–96). -/
def looksLikeProductName (v : Option String) : Bool :=
  match v with
  | none => false
  | some raw =>
    let s := jsTrim raw
    if s = "" ∨ s.length < 2 then false
    else hasLetter s

/-- `looksLikePrice` (index.ts:99–106): strip `,` `₹` `$` and whitespace,
coerce with `Number`, accept finite values strictly between 0 and 10,000,000. -/
def looksLikePrice (v : Option String) : Bool :=
  match v with
  | none => false
  | some raw =>
    let s := jsTrim raw
    if s = "" then false
    else
      match jsNumber ⟨s.data.filter fun c => ¬(c = ',' ∨ c = '₹' ∨ c = '$' ∨ isJsSpace c)⟩ with
      | none => false
      | some n => JsNum.ltb ⟨0, 0⟩ n && JsNum.ltb n ⟨10000000, 0⟩

/-- `normalizeHeader` (index.ts:51): lowercase, then delete every character
matched by the regex class `[\s._\-()]`. -/
def normalizeHeader (h : String) : String :=
  ⟨(jsToLower h).data.filter fun c =>
    ¬(isJsSpace c ∨ c = '.' ∨ c = '_' ∨ c = '-' ∨ c = '(' ∨ c = ')')⟩

/-- `pickHeader` (index.ts:53–66): an exact phase then a fuzzy phase; in each
phase candidates are tried in order and, for a given candidate, the first
header (in header order) that matches wins. -/
def pickHeader (headers candidates : List String) : Option String :=
  let normalized := headers.map fun h => (h, normalizeHeader h)
  let wanted := candidates.map normalizeHeader
  match wanted.findSome? (fun w => (normalized.find? fun p => p.2 = w).map Prod.fst) with
  | some hit => some hit
  | none =>
    wanted.findSome? fun w =>
      (normalized.find? fun p => strContains p.2 w || strContains w p.2).map Prod.fst

/-- One row of the header-row scan (index.ts:150–160): the row qualifies when
it has at least 3 truthy cells with non-blank trim and at least 2 truthy cells
containing a letter. -/
def rowQualifies (row : List String) : Bool :=
  let nonEmptyCount := (row.filter fun v => v ≠ "" && jsTrim v ≠ "").length
  let textCount := (row.filter fun v => v ≠ "" && hasLetter v).length
  3 ≤ nonEmptyCount && 2 ≤ textCount

/-- Header-row locator (index.ts:148–160): the first qualifying row among rows
`0 .. min 10 n - 1`, defaulting to row 0 when none qualifies. -/
def findHeaderRowIndex (rawData : List (List String)) : Nat :=
  match (List.range (min 10 rawData.length)).find? (fun i => rowQualifies (rawData.getD i [])) with
  | some i => i
  | none => 0

/-- A parsed record of the header-aware CSV pass: column label to cell value,
in column order. -/
abbrev Row : Type := List (String × String)

/-- Lookup `row[h]`.  When duplicate headers occur, JS object assignment keeps
the value written last, hence the reversed search. -/
def rowGet (row : Row) (h : String) : Option String :=
  ((List.reverse row).find? fun p => p.1 = h).map Prod.snd

/-- Per-column tallies of `detectColumnTypes` (index.ts:110). -/
structure ColStats where
  textCount : Nat
  priceCount : Nat
  emptyCount : Nat
  samples : List String
deriving DecidableEq, Repr

def ColStats.init : ColStats := ⟨0, 0, 0, []⟩

/-- One cell's contribution to the column statistics (index.ts:118–132):
empty first, then price-like, then text-like (collecting up to 3 samples of
the trimmed text cut to 50 characters); any other cell is left uncounted. -/
def updateStats (st : ColStats) (val : Option String) : ColStats :=
  match val with
  | none => { st with emptyCount := st.emptyCount + 1 }
  | some s =>
    if jsTrim s = "" then { st with emptyCount := st.emptyCount + 1 }
    else if looksLikePrice (some s) then { st with priceCount := st.priceCount + 1 }
    else if looksLikeProductName (some s) then
      { st with
        textCount := st.textCount + 1
        samples :=
          if st.samples.length < 3 then st.samples ++ [⟨(jsTrim s).data.take 50⟩]
          else st.samples }
    else st

/-- The statistics accumulated in the entry `columnStats[h]` over the first
100 rows (index.ts:116–132).  The source iterates the headers array INSIDE
the row loop over one shared per-label dictionary: for every sampled row, the
entry of label `h` receives one `updateStats` application per occurrence of
`h` in `headers`, each reading the same cell `row[h]`; iterations for other
labels touch other entries only, so the entry's final value is exactly this
per-label replay, in row order. -/
def colStatsFor (rows : List Row) (headers : List String) (h : String) : ColStats :=
  (rows.take 100).foldl
    (fun st row =>
      (headers.filter fun h2 => h2 = h).foldl
        (fun acc _ => updateStats acc (rowGet row h)) st)
    ColStats.init

/-- The distinct labels of a header list in first-occurrence order — the key
set and iteration order of the JS `columnStats` object built at
index.ts:112–114 (object keys are created on first assignment and
`Object.entries` follows insertion order). -/
def dedupKeys : List String → List String
  | [] => []
  | h :: t => h :: (dedupKeys t).filter fun h2 => h2 ≠ h

/-- `detectColumnTypes` (index.ts:109–135): the per-label statistics, keyed by
the distinct header labels in first-occurrence order (the iteration order of
`Object.entries` downstream).  A label duplicated in `headers` has ONE shared
entry, updated once per occurrence per sampled row (see `colStatsFor`). -/
def detectColumnTypes (rows : List Row) (headers : List String) :
    List (String × ColStats) :=
  (dedupKeys headers).map fun h => (h, colStatsFor rows headers h)

/-- The JS test `count / total * 100 > 30`, written exactly on naturals.
For `total > 0` the float comparison agrees with the exact rational one: the
ratio is at least `1 / (10 · total)` away from `3/10` whenever it differs from
it, far beyond double rounding error at these sizes, and at exactly `3/10` the
product evaluates to the double `30` and the strict test is false either way.
For `total = 0` the only reachable count is `0` (counts are bounded by the
number of sampled rows) and both readings are false. -/
def fillRateGt30 (count total : Nat) : Bool :=
  30 * total < 100 * count

/-- Name-column auto-detection (index.ts:204–217): scan the column entries in
order keeping the column with the strictly highest text count among those
whose text fill-rate exceeds 30%. -/
def autoDetectNameColumn (stats : List (String × ColStats)) (rowCount : Nat) :
    Option String :=
  (stats.foldl
    (fun acc e =>
      if e.2.textCount > acc.2 ∧ fillRateGt30 e.2.textCount rowCount then
        (some e.1, e.2.textCount)
      else acc)
    ((none : Option String), 0)).1

/-- Detected price columns (index.ts:226–232): the columns whose price
fill-rate exceeds 30%, in header order. -/
def detectPriceColumns (stats : List (String × ColStats)) (rowCount : Nat) : List String :=
  (stats.filter fun e => fillRateGt30 e.2.priceCount rowCount).map Prod.fst

/-- Candidate lists of index.ts:201 and 235–261, verbatim. -/
def nameCandidates : List String :=
  ["name", "productname", "item", "itemname", "particulars", "product", "material", "goods"]

def productIdCandidates : List String :=
  ["productid", "productcode", "code", "sku", "itemcode", "item_code", "id", "srno",
   "sr_no", "sno", "sl", "slno"]

def categoryCandidates : List String := ["category", "group", "type"]

def supplierCandidates : List String := ["supplier", "brand", "make", "company"]

def purchaseCandidates : List String :=
  ["purchaseprice", "purchase_price", "rate", "cost", "wholesale", "net", "netrate",
   "net_rate", "dealerprice", "dealer_price", "dp", "basicrate", "basic_rate",
   "basicprice", "basic", "dlp"]

def sellingCandidates : List String :=
  ["sellingprice", "selling_price", "saleprice", "price", "retail", "sp",
   "retailprice", "retail_price"]

def mrpCandidates : List String :=
  ["mrp", "mrpprice", "mrp_price", "listprice", "list_price", "maximumretailprice"]

def withoutTaxCandidates : List String :=
  ["withouttaxprice", "without_tax_price", "taxablevalue", "baseprice", "taxable",
   "beforetax", "excltax", "excl_tax", "nettaxable", "net_taxable"]

def qtyCandidates : List String :=
  ["qty", "quantity", "stock", "stockqty", "stock_qty", "balance", "available",
   "instock", "in_stock", "closing", "closingstock", "closing_stock"]

def unitCandidates : List String := ["unit", "uom"]

def barcodeCandidates : List String := ["barcode", "ean", "upc"]

def itemCodeCandidates : List String :=
  ["itemcode", "item_code", "partno", "part_no", "articlenumber", "article_no"]

def descCandidates : List String :=
  ["description", "desc", "details", "specification", "specs"]

def packInnerCandidates : List String :=
  ["packinginner", "packing_inner", "innerpack", "inner", "packof", "pack_of", "moq",
   "minqty", "packing"]

def packFinalCandidates : List String :=
  ["packingfinalprice", "packing_final_price", "packprice", "packingprice",
   "finalprice", "boxprice", "box_price"]

/-- The four resolved price column labels. -/
structure PriceHeaders where
  hPurchase : Option String
  hSelling : Option String
  hMrp : Option String
  hWithoutTax : Option String
deriving DecidableEq, Repr

/-- Price-column resolution (index.ts:239–253): header-name matching for the
four price fields, then the auto-detect override that fills selling (and mrp,
when a second detected column exists) whenever purchase, selling and mrp all
failed to match by name and at least one detected price column exists. -/
def resolvePriceColumns (parsedHeaders priceColumns : List String) : PriceHeaders :=
  let hPurchase := pickHeader parsedHeaders purchaseCandidates
  let hSelling := pickHeader parsedHeaders sellingCandidates
  let hMrp := pickHeader parsedHeaders mrpCandidates
  let hWithoutTax := pickHeader parsedHeaders withoutTaxCandidates
  if hPurchase = none ∧ hSelling = none ∧ hMrp = none ∧ priceColumns ≠ [] then
    { hPurchase := hPurchase
      hSelling := priceColumns.head?
      hMrp := if priceColumns.length > 1 then priceColumns[1]? else hMrp
      hWithoutTax := hWithoutTax }
  else
    { hPurchase := hPurchase, hSelling := hSelling, hMrp := hMrp, hWithoutTax := hWithoutTax }

/-- Suffix test on strings via reversed character lists. -/
def strEndsWith (s suf : String) : Bool :=
  suf.data.reverse.isPrefixOf s.data.reverse

/-- Split a character list at every occurrence of a separator (the separator
is consumed; `n` separators yield `n + 1` pieces). -/
def splitListOn (sep : Char) : List Char → List (List Char)
  | [] => [[]]
  | c :: cs =>
    let rest := splitListOn sep cs
    if c = sep then [] :: rest
    else
      match rest with
      | [] => [[c]]
      | r :: rs => (c :: r) :: rs

/-- Model of the third-party `Papa.parse(content, { header: false,
skipEmptyLines: true, dynamicTyping: false })` call (index.ts:139–143) for the
newline-separated, comma-delimited files the handler receives: split into
lines on `\n` (tolerating a trailing `\r`), drop empty lines, split each line
into cells on `,`.  Quoted fields and alternative delimiters are outside the
model; theorems about the extractor either quantify over the parse result or
use quote-free inputs. -/
def papaParseRaw (content : String) : List (List String) :=
  (((splitListOn '\n' content.data).map fun line =>
      if line.getLast? = some '\r' then line.dropLast else line).filter
    fun line => line ≠ []).map fun line => (splitListOn ',' line).map fun cs => (⟨cs⟩ : String)

/-- `transformHeader` (index.ts:179–186). -/
def transformHeader (h : String) (idx : Nat) : String :=
  let trimmed := jsTrim h
  if trimmed = "" ∨ "unnamed".data.isPrefixOf (jsToLower trimmed).data then s!"Col_{idx}"
  else trimmed

/-- The header-aware parse (index.ts:175–193, same Papa model as
`papaParseRaw`): the first parsed row becomes the header row, each label going
through `transformHeader`; every following row is zipped with those labels
(missing trailing cells simply yield absent keys, and duplicate labels
overwrite on lookup, see `rowGet`). -/
def papaParseWithHeader (content : String) : List String × List Row :=
  match papaParseRaw content with
  | [] => ([], [])
  | headerRow :: dataRows =>
    let fields := headerRow.enum.map fun p =>
      let idx := p.1
      transformHeader p.2 idx
    (fields, dataRows.map fun r => fields.zip r)

/-- The synthesized header labels of index.ts:163–170 (computed and logged by
the source, but not used by the re-parse). -/
def synthesizeHeaders (headerRow : List String) : List String :=
  headerRow.enum.map fun p =>
    let idx := p.1
    let val := jsTrim p.2
    if val ≠ "" ∧ val.length < 50 then val else s!"Col_{idx}"

/-- A candidate product as emitted by the CSV fast path (index.ts:278–301).
`none` in an optional field models the key being absent: the handler deletes
every null-valued key before emission (index.ts:296–299). -/
structure CandidateProduct where
  name : String
  product_id : Option String
  category : Option String
  supplier : Option String
  purchase_price : Option JsNum
  selling_price : Option JsNum
  mrp_price : Option JsNum
  without_tax_price : Option JsNum
  stock_qty : Option Int
  unit : Option String
  barcode : Option String
  item_code : Option String
  description : Option String
  packing_inner : Option String
  packing_final_price : Option String
deriving DecidableEq, Repr

/-- The column labels resolved by the extractor before the row loop
(index.ts:201–263). -/
structure ResolvedColumns where
  hName : String
  hProductId : Option String
  hCategory : Option String
  hSupplier : Option String
  hPurchase : Option String
  hSelling : Option String
  hMrp : Option String
  hWithoutTax : Option String
  hQty : Option String
  hUnit : Option String
  hBarcode : Option String
  hItemCode : Option String
  hDesc : Option String
  hPackInner : Option String
  hPackFinal : Option String
deriving DecidableEq, Repr

/-- The per-row mapper of the extractor (index.ts:266–302): resolve the name,
drop rows whose name is missing or shorter than 2 characters, drop rows whose
lowercased name contains "total" or equals a known header label, and otherwise
populate the record through the value normalizers. -/
def buildProduct (cols : ResolvedColumns) (r : Row) : Option CandidateProduct :=
  match toText (rowGet r cols.hName) with
  | none => none
  | some name =>
    if name.length < 2 then none
    else
      let nameLower := jsToLower name
      if strContains nameLower "total" || strContains nameLower "grand total" ||
          nameLower = "name" || nameLower = "product name" || nameLower = "item" ||
          nameLower = "particulars" || nameLower = "description" then none
      else
        some
          { name := name
            product_id := cols.hProductId.bind fun h => toText (rowGet r h)
            category := cols.hCategory.bind fun h => toText (rowGet r h)
            supplier := cols.hSupplier.bind fun h => toText (rowGet r h)
            purchase_price := cols.hPurchase.bind fun h => toNumber (rowGet r h)
            selling_price := cols.hSelling.bind fun h => toNumber (rowGet r h)
            mrp_price := cols.hMrp.bind fun h => toNumber (rowGet r h)
            without_tax_price := cols.hWithoutTax.bind fun h => toNumber (rowGet r h)
            stock_qty := cols.hQty.bind fun h => toInt (rowGet r h)
            unit := cols.hUnit.bind fun h => toText (rowGet r h)
            barcode := cols.hBarcode.bind fun h => toText (rowGet r h)
            item_code := cols.hItemCode.bind fun h => toText (rowGet r h)
            description := cols.hDesc.bind fun h => toText (rowGet r h)
            packing_inner := cols.hPackInner.bind fun h => toText (rowGet r h)
            packing_final_price := cols.hPackFinal.bind fun h => toText (rowGet r h) }

/-- `tryExtractProductsFromCsv` (index.ts:137–306).  The header-row index and
the synthesized labels are computed by the source but only logged — the
header-aware re-parse always keys records off the file's first row; they are
kept here for step-by-step correspondence. -/
def tryExtractProductsFromCsv (content : String) : List CandidateProduct :=
  let rawData := papaParseRaw content
  if rawData.length < 2 then []
  else
    let headerRowIndex := findHeaderRowIndex rawData
    let _headers := synthesizeHeaders (rawData.getD headerRowIndex [])
    let parsed := papaParseWithHeader content
    let parsedHeaders := parsed.1
    if parsedHeaders.isEmpty then []
    else
      let rows := parsed.2.filter fun r => ¬ r.isEmpty
      let columnStats := detectColumnTypes rows parsedHeaders
      let hName0 := pickHeader parsedHeaders nameCandidates
      let hName :=
        match hName0 with
        | some h => some h
        | none => autoDetectNameColumn columnStats rows.length
      match hName with
      | none => []
      | some hN =>
        let priceColumns := detectPriceColumns columnStats rows.length
        let prices := resolvePriceColumns parsedHeaders priceColumns
        let cols : ResolvedColumns :=
          { hName := hN
            hProductId := pickHeader parsedHeaders productIdCandidates
            hCategory := pickHeader parsedHeaders categoryCandidates
            hSupplier := pickHeader parsedHeaders supplierCandidates
            hPurchase := prices.hPurchase
            hSelling := prices.hSelling
            hMrp := prices.hMrp
            hWithoutTax := prices.hWithoutTax
            hQty := pickHeader parsedHeaders qtyCandidates
            hUnit := pickHeader parsedHeaders unitCandidates
            hBarcode := pickHeader parsedHeaders barcodeCandidates
            hItemCode := pickHeader parsedHeaders itemCodeCandidates
            hDesc := pickHeader parsedHeaders descCandidates
            hPackInner := pickHeader parsedHeaders packInnerCandidates
            hPackFinal := pickHeader parsedHeaders packFinalCandidates }
        rows.filterMap (buildProduct cols)

/-- Whether a `JsNum` denotes an integer (JS `Number.isInteger`, the check
behind `z.number().int()`). -/
def JsNum.isIntegerValue (a : JsNum) : Bool :=
  a.mantissa % (10 ^ a.exp : Int) = 0

/-- One element of the array returned by the AI call, typed by the fields of
`ProductSchema` (index.ts:8–24); `none` covers both an absent and a `null`
field, and a missing `name` models any element on which `ProductSchema.parse`
throws for the required field.  (Arbitrary non-object JSON junk also fails the
parse; it is representable here as a record with `name := none`.) -/
structure RawProduct where
  name : Option String
  product_id : Option String := none
  category : Option String := none
  supplier : Option String := none
  purchase_price : Option JsNum := none
  selling_price : Option JsNum := none
  mrp_price : Option JsNum := none
  without_tax_price : Option JsNum := none
  stock_qty : Option JsNum := none
  unit : Option String := none
  barcode : Option String := none
  item_code : Option String := none
  description : Option String := none
  packing_inner : Option String := none
  packing_final_price : Option (String ⊕ JsNum) := none
deriving DecidableEq, Repr

/-- The zod bound `z.number().min(0).max(100000000)` on an optional field. -/
def optNumInRange (v : Option JsNum) : Bool :=
  match v with
  | none => true
  | some n => JsNum.leb ⟨0, 0⟩ n && JsNum.leb n ⟨100000000, 0⟩

/-- The zod bound `z.string().max m` on an optional field. -/
def optStrMax (v : Option String) (m : Nat) : Bool :=
  match v with
  | none => true
  | some s => s.length ≤ m

/-- Success of `ProductSchema.parse` (index.ts:8–24) as a Boolean predicate. -/
def isValidProduct (p : RawProduct) : Bool :=
  (match p.name with
   | none => false
   | some s => 1 ≤ s.length && s.length ≤ 500) &&
  optStrMax p.product_id 100 && optStrMax p.category 200 && optStrMax p.supplier 200 &&
  optNumInRange p.purchase_price && optNumInRange p.selling_price &&
  optNumInRange p.mrp_price && optNumInRange p.without_tax_price &&
  (match p.stock_qty with
   | none => true
   | some q => q.isIntegerValue && JsNum.leb ⟨0, 0⟩ q && JsNum.leb q ⟨100000000, 0⟩) &&
  optStrMax p.unit 50 && optStrMax p.barcode 100 && optStrMax p.item_code 100 &&
  optStrMax p.description 2000 && optStrMax p.packing_inner 100 &&
  (match p.packing_final_price with
   | none => true
   | some (.inl s) => s.length ≤ 100
   | some (.inr n) => JsNum.leb ⟨0, 0⟩ n && JsNum.leb n ⟨100000000, 0⟩)

/-- `validateAndSanitizeProducts` (index.ts:29–44): keep each element whose
schema parse succeeds, skip (with only a logged warning) each element whose
parse throws. -/
def validateAndSanitizeProducts (rawProducts : List RawProduct) : List RawProduct :=
  rawProducts.foldl (fun acc p => if isValidProduct p then acc ++ [p] else acc) []

/-- The AI-path response decision (index.ts:572–583 together with the
catch-all of index.ts:585–591): HTTP status and body product list.  The
`products.length === 0 && rawProducts.length > 0` branch throws, and the
catch-all surfaces the thrown validation error as a 500 error envelope with
an empty body. -/
def serveAiValidation (rawProducts : List RawProduct) : Nat × List RawProduct :=
  let products := validateAndSanitizeProducts rawProducts
  if products.length = 0 ∧ rawProducts.length > 0 then (500, [])
  else (200, products)

/-- `MAX_FILE_SIZE` (index.ts:375). -/
def MAX_FILE_SIZE : Nat := 500 * 1024

/-- The request body after authentication, as far as the size-limit and
dispatch logic reads it (index.ts:377–427): a multipart upload carries the
file name, the binary byte length of the uploaded file and its decoded text;
a JSON body carries the optional inline `fileContent` and `fileType` strings.
(A multipart body without a `file` part throws before the size check and is
outside this model.) -/
inductive RequestBody where
  | multipart (fileName : String) (byteLength : Nat) (textContent : String)
  | json (fileContent : Option String) (fileType : Option String)

/-- What the handler does with a request after the size gate, as observable
from outside: reject with 413, answer from the CSV fast path, or proceed to
the AI gateway call. -/
inductive HandlerOutcome where
  | payloadTooLarge
  | csvFastPath (products : List CandidateProduct)
  | aiFallback
deriving DecidableEq, Repr

/-- The CSV fast path gate of `serve` (index.ts:430–444): for csv-typed
content with a non-blank body, run `tryExtractProductsFromCsv` and answer
directly when it produced anything; otherwise continue to the AI call of
index.ts:446 onward. -/
def runCsvStage (fileType fileContent : String) : HandlerOutcome :=
  if fileType = "csv" ∧ jsTrim fileContent ≠ "" then
    let directProducts := tryExtractProductsFromCsv fileContent
    if directProducts.length > 0 then .csvFastPath directProducts else .aiFallback
  else .aiFallback

/-- The body-reading and dispatch stage of `serve` (index.ts:368–444): on the
multipart path the binary byte length is checked against `MAX_FILE_SIZE`
(index.ts:389–395) right after the upload is read and before the PDF/CSV
decode; on the JSON path the `fileContent` string length is checked
(index.ts:420–426) right after the body is read.  Only payloads that pass the
gate reach `runCsvStage`, i.e. the CSV extractor or the AI call. -/
def dispatchRequest (body : RequestBody) : HandlerOutcome :=
  match body with
  | .multipart fileName byteLength textContent =>
    if byteLength > MAX_FILE_SIZE then .payloadTooLarge
    else
      let isPdf := strEndsWith (jsToLower fileName) ".pdf"
      let fileType := if isPdf then "pdf" else "csv"
      let fileContent := if isPdf then "" else textContent
      runCsvStage fileType fileContent
  | .json fileContent fileType =>
    let fc := fileContent.getD ""
    let ft := match fileType with
      | some t => if t = "" then "csv" else t
      | none => "csv"
    if fileContent ≠ none ∧ fc.length > MAX_FILE_SIZE then .payloadTooLarge
    else runCsvStage ft fc

/-- C1 amended, spec side: a row is skipped because of its name exactly when
the resolved name is missing, empty after trimming, shorter than 2
characters, case-insensitively CONTAINS "total" (a substring test, which
subsumes the code's redundant "grand total" test), or case-insensitively
equals one of "name", "product name", "item", "particulars", "description". -/
def skipsRowByName (nameOpt : Option String) : Bool :=
  match nameOpt with
  | none => true
  | some name =>
    name.length < 2 ||
    strContains (jsToLower name) "total" ||
    jsToLower name = "name" || jsToLower name = "product name" ||
    jsToLower name = "item" || jsToLower name = "particulars" ||
    jsToLower name = "description"

/-- C4 spec side, exact phase, following the spec's words: candidates are
tried in order; for the first candidate that some header normalizes exactly
to, the first such header (in header order) is returned. -/
def pickHeaderSpecExact (headers candidates : List String) : Option String :=
  candidates.findSome? fun c =>
    headers.find? fun h => normalizeHeader h = normalizeHeader c

/-- C4 spec side, fuzzy phase: containment either way, candidates tried in
order, first matching header wins. -/
def pickHeaderSpecFuzzy (headers candidates : List String) : Option String :=
  candidates.findSome? fun c =>
    headers.find? fun h =>
      strContains (normalizeHeader h) (normalizeHeader c) ||
      strContains (normalizeHeader c) (normalizeHeader h)

/-- The profiler's empty-cell test (index.ts:121). -/
def isEmptyCell (val : Option String) : Bool :=
  match val with
  | none => true
  | some s => jsTrim s = ""

/-- A sampled cell that lands in one of the profiler's three classes. -/
def isCountedCell (val : Option String) : Bool :=
  isEmptyCell val || looksLikePrice val || looksLikeProductName val

/-! ### Sanity checks -/

example : toNumber (some "₹1,250.50") = some ⟨125050, 2⟩ := by decide
example : toNumber (some "-5") = none := by decide
example : looksLikePrice (some "0") = false := by decide
example : looksLikePrice (some " 1,250 ") = true := by decide
example : looksLikeProductName (some "0") = false := by decide
example : pickHeader ["Cost Price", "Rate"] ["rate", "cost"] = some "Rate" := by decide
example : pickHeader ["Cost Price", "Rate"] ["cost", "rate"] = some "Rate" := by decide
example : pickHeader ["Net Rate (₹)"] ["purchaseprice", "rate"] = some "Net Rate (₹)" := by decide
example : pickHeader ["Taxable Value"] sellingCandidates = none := by decide
example : pickHeader ["Taxable Value"] withoutTaxCandidates = some "Taxable Value" := by decide
example : findHeaderRowIndex [["x"], ["A", "B", "C"], ["p", "q", "r"]] = 1 := by decide

/-! ### Support lemmas -/

theorem JsNum.leb_iff (a b : JsNum) : a.leb b = true ↔ a.toRat ≤ b.toRat := by
  have h10a : (0 : Rat) < (10 : Rat) ^ a.exp := by positivity
  have h10b : (0 : Rat) < (10 : Rat) ^ b.exp := by positivity
  simp only [JsNum.leb, JsNum.toRat, decide_eq_true_eq]
  rw [div_le_div_iff₀ h10a h10b]
  constructor <;> intro h <;> exact_mod_cast h

theorem JsNum.ltb_iff (a b : JsNum) : a.ltb b = true ↔ a.toRat < b.toRat := by
  have h10a : (0 : Rat) < (10 : Rat) ^ a.exp := by positivity
  have h10b : (0 : Rat) < (10 : Rat) ^ b.exp := by positivity
  simp only [JsNum.ltb, JsNum.toRat, decide_eq_true_eq]
  rw [div_lt_div_iff₀ h10a h10b]
  constructor <;> intro h <;> exact_mod_cast h

theorem infixOfList_iff (pat l : List Char) : infixOfList pat l = true ↔ pat <:+: l := by
  induction l with
  | nil =>
    simp only [infixOfList, List.isEmpty_iff, List.infix_nil]
  | cons c cs ih =>
    simp only [infixOfList, Bool.or_eq_true, List.isPrefixOf_iff_prefix, ih,
      List.infix_cons_iff]

theorem strContains_total_of_grand (s : String)
    (h : strContains s "grand total" = true) : strContains s "total" = true := by
  rw [strContains, infixOfList_iff] at h ⊢
  exact ((infixOfList_iff _ _).mp (by decide)).trans h

theorem find?_eq_head?_filter {α : Type} (p : α → Bool) (l : List α) :
    l.find? p = (l.filter p).head? := by
  induction l with
  | nil => rfl
  | cons a t ih =>
    by_cases h : p a = true
    · rw [List.find?_cons_of_pos _ h, List.filter_cons_of_pos h, List.head?_cons]
    · rw [List.find?_cons_of_neg _ h, List.filter_cons_of_neg h, ih]

theorem find_pair_fst (headers : List String) (pred : String → Bool) :
    ((headers.map fun h => (h, normalizeHeader h)).find? fun p => pred p.2).map Prod.fst =
      headers.find? fun h => pred (normalizeHeader h) := by
  induction headers with
  | nil => rfl
  | cons a t ih =>
    simp only [List.map_cons, List.find?_cons]
    by_cases h : pred (normalizeHeader a)
    · simp [h]
    · simp [h, Function.comp_def, ih]

theorem find_pair_exact (headers : List String) (w : String) :
    (Option.map Prod.fst ((headers.map fun h => (h, normalizeHeader h)).find?
      fun p => p.2 = w)) = headers.find? fun h => normalizeHeader h = w :=
  find_pair_fst headers fun n => n = w

theorem find_pair_fuzzy (headers : List String) (w : String) :
    (Option.map Prod.fst ((headers.map fun h => (h, normalizeHeader h)).find?
      fun p => strContains p.2 w || strContains w p.2)) =
      headers.find? fun h => strContains (normalizeHeader h) w || strContains w (normalizeHeader h) :=
  find_pair_fst headers fun n => strContains n w || strContains w n

/-! ### Claim theorems -/

/-- C7: the value normalizers: `toNumber` strips currency formatting (so
"₹1,250.50" denotes the rational 1250.5), maps the empty string and
unparsable text to null, `toInt` truncates ("12.9" ↦ 12), and `toText` trims
and maps blank strings to null.  All three are total Lean functions (so they
cannot throw) and degrade to `none` on null input. -/
theorem c7_value_normalizers :
    (∃ j, toNumber (some "₹1,250.50") = some j ∧ j.toRat = 1250.5) ∧
    toNumber (some "") = none ∧
    toNumber (some "abc") = none ∧
    toInt (some "12.9") = some 12 ∧
    toText (some "  MCB 32A  ") = some "MCB 32A" ∧
    toText (some "") = none ∧ toText (some "   ") = none ∧
    toNumber none = none ∧ toInt none = none ∧ toText none = none := by
  refine ⟨⟨⟨125050, 2⟩, by decide, ?_⟩, by decide, by decide, by decide, by decide,
    by decide, by decide, by decide, by decide, by decide⟩
  simp only [JsNum.toRat]
  norm_num

/-- C1 counterexample: the claim asserts that a row whose resolved name is
"Total Amount" is NOT excluded (equality, not substring, deciding exclusion);
in the code `nameLower.includes('total')` is a substring test, so such a row
IS excluded — both at the row mapper and through the whole extractor. -/
theorem c1_counterexample :
    toText (rowGet [("Name", "Total Amount"), ("Price", "10")] "Name") =
      some "Total Amount" ∧
    buildProduct
      { hName := "Name", hProductId := none, hCategory := none, hSupplier := none,
        hPurchase := none, hSelling := some "Price", hMrp := none, hWithoutTax := none,
        hQty := none, hUnit := none, hBarcode := none, hItemCode := none, hDesc := none,
        hPackInner := none, hPackFinal := none }
      [("Name", "Total Amount"), ("Price", "10")] = none ∧
    tryExtractProductsFromCsv "Name,Price\nWidget,10\nTotal Amount,30" =
      [{ name := "Widget", product_id := none, category := none, supplier := none,
         purchase_price := some ⟨10, 0⟩, selling_price := some ⟨10, 0⟩,
         mrp_price := some ⟨10, 0⟩, without_tax_price := some ⟨10, 0⟩, stock_qty := none,
         unit := none, barcode := none, item_code := none, description := none,
         packing_inner := none, packing_final_price := some "10" }] := by
  refine ⟨by decide, by decide, by decide⟩

/-- C1 amended: for every resolved column set and every row, the row mapper
drops the row iff `skipsRowByName` holds of its resolved name — i.e. the
"total" family is excluded by substring, the other labels by equality. -/
theorem c1_name_skip (cols : ResolvedColumns) (r : Row) :
    (buildProduct cols r).isNone = skipsRowByName (toText (rowGet r cols.hName)) := by
  unfold buildProduct skipsRowByName
  cases toText (rowGet r cols.hName) with
  | none => rfl
  | some name =>
    by_cases hlen : name.length < 2
    · simp [hlen]
    · by_cases hg : strContains (jsToLower name) "grand total" = true
      · have ht := strContains_total_of_grand _ hg
        simp [hlen, hg, ht]
      · by_cases ht : strContains (jsToLower name) "total" = true
        · simp [hlen, ht, hg]
        · simp only [if_neg hlen, ht, hg, Bool.false_or, decide_eq_true_eq]
          split <;> (simp_all; try tauto)

/-- C4: `pickHeader` equals the spec's two-phase description — the whole exact
phase runs before any fuzzy matching, candidate order (not header order)
decides priority within each phase, and `none` is returned only when both
phases fail.  In particular (the spec's concrete scenario) an exact match on
"rate" beats a fuzzy match on "cost" under both candidate orderings. -/
theorem c4_pickHeader (headers candidates : List String) :
    (pickHeader headers candidates =
      match pickHeaderSpecExact headers candidates with
      | some hit => some hit
      | none => pickHeaderSpecFuzzy headers candidates) ∧
    pickHeader ["Cost Price", "Rate"] ["rate", "cost"] = some "Rate" ∧
    pickHeader ["Cost Price", "Rate"] ["cost", "rate"] = some "Rate" ∧
    pickHeader ["Cost Price", "Rate"] [] = none := by
  refine ⟨?_, by decide, by decide, by decide⟩
  unfold pickHeader pickHeaderSpecExact pickHeaderSpecFuzzy
  simp only [List.findSome?_map, Function.comp_def, find_pair_exact, find_pair_fuzzy]

/-- C5: the header-row locator returns the first index `i` in the window
`0 .. min 10 n - 1` whose row qualifies (≥ 3 non-empty cells and ≥ 2 cells
containing a letter, see `rowQualifies`), and 0 when no row in the window
qualifies; consequently every row strictly before the returned index fails
the qualification test. -/
theorem c5_header_row_locator (rawData : List (List String)) :
    findHeaderRowIndex rawData =
      (((List.range (min 10 rawData.length)).filter fun i =>
          rowQualifies (rawData.getD i [])).head?).getD 0 ∧
    ∀ j, j < findHeaderRowIndex rawData → rowQualifies (rawData.getD j []) = false := by
  have heq : findHeaderRowIndex rawData =
      (((List.range (min 10 rawData.length)).filter fun i =>
          rowQualifies (rawData.getD i [])).head?).getD 0 := by
    rw [findHeaderRowIndex, find?_eq_head?_filter]
    cases ((List.range (min 10 rawData.length)).filter fun i =>
        rowQualifies (rawData.getD i [])).head? <;> rfl
  refine ⟨heq, ?_⟩
  intro j hj
  by_contra hq
  rw [Bool.not_eq_false] at hq
  cases hL : (List.range (min 10 rawData.length)).filter fun i =>
      rowQualifies (rawData.getD i []) with
  | nil =>
    rw [heq, hL] at hj
    simp at hj
  | cons k t =>
    have hk : findHeaderRowIndex rawData = k := by rw [heq, hL]; rfl
    rw [hk] at hj
    have hkmem : k ∈ (List.range (min 10 rawData.length)).filter fun i =>
        rowQualifies (rawData.getD i []) := by
      rw [hL]; exact List.mem_cons_self _ _
    have hkrange : k < min 10 rawData.length :=
      List.mem_range.mp (List.mem_filter.mp hkmem).1
    have hjL : j ∈ (List.range (min 10 rawData.length)).filter fun i =>
        rowQualifies (rawData.getD i []) :=
      List.mem_filter.mpr ⟨List.mem_range.mpr (lt_trans hj hkrange), hq⟩
    have hpair : ((List.range (min 10 rawData.length)).filter fun i =>
        rowQualifies (rawData.getD i [])).Pairwise (· < ·) :=
      (List.pairwise_lt_range _).sublist (List.filter_sublist _)
    rw [hL] at hjL hpair
    rcases List.mem_cons.mp hjL with h | h
    · rw [h] at hj
      exact lt_irrefl _ hj
    · have := (List.pairwise_cons.mp hpair).1 j h
      exact absurd hj (not_lt.mpr (le_of_lt this))

/-- C5 witness: applying the locator theorem to a file whose first row has a
single cell shows that row 0 fails the qualification test, since the locator
picked row 1. -/
theorem c5_header_row_locator_witness :
    rowQualifies (([["x"], ["A", "B", "C"]] : List (List String)).getD 0 []) = false :=
  (c5_header_row_locator [["x"], ["A", "B", "C"]]).2 0 (by decide)

/-- C2 counterexample: with headers in which ONLY the without-tax field is
matched by name (exact candidate "taxablevalue") and one detected price
column, the code still auto-assigns the detected column as selling price: the
guard of index.ts:246 tests only purchase, selling and mrp, so the claim's
"including without_tax_price alone" direction fails. -/
theorem c2_counterexample :
    pickHeader ["Taxable Value", "Amount"] purchaseCandidates = none ∧
    pickHeader ["Taxable Value", "Amount"] sellingCandidates = none ∧
    pickHeader ["Taxable Value", "Amount"] mrpCandidates = none ∧
    pickHeader ["Taxable Value", "Amount"] withoutTaxCandidates = some "Taxable Value" ∧
    resolvePriceColumns ["Taxable Value", "Amount"] ["Amount"] =
      { hPurchase := none, hSelling := some "Amount", hMrp := none,
        hWithoutTax := some "Taxable Value" } :=
  ⟨by decide, by decide, by decide, by decide, by decide⟩

/-- C2 amended: auto-detected price columns are assigned exactly when NONE of
purchase, selling and mrp matched by header name (the without-tax match does
NOT block auto-detection) and at least one column has price fill-rate above
30%; in that case the first detected column becomes selling price and the
second (if any) becomes mrp, while purchase and without-tax keep their
name-matched resolution and are never auto-filled. -/
theorem c2_price_autodetect (headers priceCols : List String) :
    (resolvePriceColumns headers priceCols).hPurchase = pickHeader headers purchaseCandidates ∧
    (resolvePriceColumns headers priceCols).hWithoutTax = pickHeader headers withoutTaxCandidates ∧
    ((pickHeader headers purchaseCandidates ≠ none ∨
      pickHeader headers sellingCandidates ≠ none ∨
      pickHeader headers mrpCandidates ≠ none ∨ priceCols = []) →
      (resolvePriceColumns headers priceCols).hSelling = pickHeader headers sellingCandidates ∧
      (resolvePriceColumns headers priceCols).hMrp = pickHeader headers mrpCandidates) ∧
    ((pickHeader headers purchaseCandidates = none ∧
      pickHeader headers sellingCandidates = none ∧
      pickHeader headers mrpCandidates = none ∧ priceCols ≠ []) →
      (resolvePriceColumns headers priceCols).hSelling = priceCols.head? ∧
      (resolvePriceColumns headers priceCols).hMrp = priceCols[1]?) := by
  by_cases hc : pickHeader headers purchaseCandidates = none ∧
      pickHeader headers sellingCandidates = none ∧
      pickHeader headers mrpCandidates = none ∧ priceCols ≠ []
  · obtain ⟨h1, h2, h3, h4⟩ := hc
    have hres : resolvePriceColumns headers priceCols =
        { hPurchase := pickHeader headers purchaseCandidates
          hSelling := priceCols.head?
          hMrp := if priceCols.length > 1 then priceCols[1]?
                  else pickHeader headers mrpCandidates
          hWithoutTax := pickHeader headers withoutTaxCandidates } := by
      simp only [resolvePriceColumns]
      rw [if_pos ⟨h1, h2, h3, h4⟩]
    rw [hres]
    refine ⟨rfl, rfl, ?_, ?_⟩
    · intro hor
      rcases hor with h | h | h | h
      · exact absurd h1 h
      · exact absurd h2 h
      · exact absurd h3 h
      · exact absurd h h4
    · intro _
      refine ⟨rfl, ?_⟩
      by_cases hl : priceCols.length > 1
      · rw [if_pos hl]
      · rw [if_neg hl, h3]
        exact (List.getElem?_eq_none (by omega)).symm
  · have hres : resolvePriceColumns headers priceCols =
        { hPurchase := pickHeader headers purchaseCandidates
          hSelling := pickHeader headers sellingCandidates
          hMrp := pickHeader headers mrpCandidates
          hWithoutTax := pickHeader headers withoutTaxCandidates } := by
      simp only [resolvePriceColumns]
      rw [if_neg hc]
    rw [hres]
    exact ⟨rfl, rfl, fun _ => ⟨rfl, rfl⟩, fun hall => absurd hall hc⟩

/-- C2 witness: applying the amended theorem to a header list in which no
price field matches by name and one detected price column, the detected
column lands in selling price and mrp stays empty. -/
theorem c2_price_autodetect_witness :
    (resolvePriceColumns ["Particulars", "Amount"] ["Amount"]).hSelling = some "Amount" ∧
    (resolvePriceColumns ["Particulars", "Amount"] ["Amount"]).hMrp = none := by
  have h := (c2_price_autodetect ["Particulars", "Amount"] ["Amount"]).2.2.2
    ⟨by decide, by decide, by decide, by decide⟩
  exact ⟨h.1.trans (by decide), h.2.trans (by decide)⟩

theorem updateStats_sum (st : ColStats) (val : Option String) :
    (updateStats st val).priceCount + (updateStats st val).textCount +
      (updateStats st val).emptyCount =
      st.priceCount + st.textCount + st.emptyCount +
        (if isCountedCell val then 1 else 0) := by
  cases val with
  | none =>
    simp [updateStats, isCountedCell, isEmptyCell]
    omega
  | some s =>
    by_cases he : jsTrim s = ""
    · simp only [updateStats, isCountedCell, isEmptyCell, he, if_pos rfl]
      simp
      omega
    · by_cases hp : looksLikePrice (some s) = true
      · simp only [updateStats, isCountedCell, isEmptyCell, he, hp, if_neg he]
        simp [he, hp]
        omega
      · by_cases hn : looksLikeProductName (some s) = true
        · simp only [updateStats, isCountedCell, isEmptyCell]
          simp [he, hp, hn]
          omega
        · simp only [updateStats, isCountedCell, isEmptyCell]
          simp [he, hp, hn]

theorem foldl_updateStats_const_sum (l : List String) (val : Option String) (st : ColStats) :
    ((l.foldl (fun acc _ => updateStats acc val) st).priceCount +
      (l.foldl (fun acc _ => updateStats acc val) st).textCount +
      (l.foldl (fun acc _ => updateStats acc val) st).emptyCount) =
      st.priceCount + st.textCount + st.emptyCount +
        l.length * (if isCountedCell val then 1 else 0) := by
  induction l generalizing st with
  | nil => simp
  | cons a t ih =>
    simp only [List.foldl_cons, List.length_cons]
    rw [ih, updateStats_sum]
    by_cases hc : isCountedCell val = true
    · simp [hc]
      ring
    · simp [hc]

theorem colStats_sum_fold (l : List Row) (headers : List String) (hl : String)
    (st : ColStats) :
    ((l.foldl (fun st row => (headers.filter fun h2 => h2 = hl).foldl
        (fun acc _ => updateStats acc (rowGet row hl)) st) st).priceCount +
      (l.foldl (fun st row => (headers.filter fun h2 => h2 = hl).foldl
        (fun acc _ => updateStats acc (rowGet row hl)) st) st).textCount +
      (l.foldl (fun st row => (headers.filter fun h2 => h2 = hl).foldl
        (fun acc _ => updateStats acc (rowGet row hl)) st) st).emptyCount) =
      st.priceCount + st.textCount + st.emptyCount +
        (headers.filter fun h2 => h2 = hl).length *
          (l.filter fun row => isCountedCell (rowGet row hl)).length := by
  induction l generalizing st with
  | nil => simp
  | cons r t ih =>
    simp only [List.foldl_cons, List.filter_cons]
    rw [ih, foldl_updateStats_const_sum]
    by_cases hc : isCountedCell (rowGet r hl) = true
    · simp [hc]
      ring
    · simp [hc]

/-- C3 counterexample: two concrete refutations of the exact-partition
equation.  (a) The cell "0" is non-empty but neither price-like (`0` is not
strictly positive) nor text-like (no letter), so it is counted in NO class
and the single-row sum is 0, not `min 100 1 = 1`.  (b) A duplicated header
label shares ONE stats entry that is updated once per occurrence per row, so
for headers "Price,Price" and one data row the sum is 2 > `min 100 1 = 1`. -/
theorem c3_counterexample :
    ((colStatsFor [[("A", "0")]] ["A"] "A").priceCount +
        (colStatsFor [[("A", "0")]] ["A"] "A").textCount +
        (colStatsFor [[("A", "0")]] ["A"] "A").emptyCount = 0 ∧
      min 100 ([[("A", "0")]] : List Row).length = 1) ∧
    ((colStatsFor [[("Price", "5"), ("Price", "7")]] ["Price", "Price"] "Price").priceCount +
        (colStatsFor [[("Price", "5"), ("Price", "7")]] ["Price", "Price"] "Price").textCount +
        (colStatsFor [[("Price", "5"), ("Price", "7")]] ["Price", "Price"] "Price").emptyCount
        = 2 ∧
      min 100 ([[("Price", "5"), ("Price", "7")]] : List Row).length = 1) :=
  ⟨⟨by decide, by decide⟩, ⟨by decide, by decide⟩⟩

/-- C3 amended: every sampled cell is classified into AT MOST one of the
three classes (empty first, then price-like, then text-like).  For a label
occurring `k` times in the header list the shared entry's three counts sum to
`k` times the number of sampled cells of that column falling in one of the
three classes: the sum is therefore bounded by `k · min 100 N`, and for a
label occurring exactly once by `min 100 N` — with strict shortfall possible
because cells like "0", "-5" or values ≥ 10,000,000 are counted nowhere, and
overshoot beyond `min 100 N` possible only for duplicated labels. -/
theorem c3_profiler_partition (rows : List Row) (headers : List String) (h : String) :
    (colStatsFor rows headers h).priceCount + (colStatsFor rows headers h).textCount +
      (colStatsFor rows headers h).emptyCount =
      (headers.filter fun h2 => h2 = h).length *
        ((rows.take 100).filter fun row => isCountedCell (rowGet row h)).length ∧
    (colStatsFor rows headers h).priceCount + (colStatsFor rows headers h).textCount +
      (colStatsFor rows headers h).emptyCount ≤
      (headers.filter fun h2 => h2 = h).length * min 100 rows.length ∧
    ((headers.filter fun h2 => h2 = h).length = 1 →
      (colStatsFor rows headers h).priceCount + (colStatsFor rows headers h).textCount +
        (colStatsFor rows headers h).emptyCount ≤ min 100 rows.length) := by
  have hfle : ((rows.take 100).filter fun row => isCountedCell (rowGet row h)).length ≤
      min 100 rows.length := by
    calc ((rows.take 100).filter fun row => isCountedCell (rowGet row h)).length
        ≤ (rows.take 100).length := List.length_filter_le _ _
      _ = min 100 rows.length := by rw [List.length_take]
  have heq : (colStatsFor rows headers h).priceCount + (colStatsFor rows headers h).textCount +
      (colStatsFor rows headers h).emptyCount =
      (headers.filter fun h2 => h2 = h).length *
        ((rows.take 100).filter fun row => isCountedCell (rowGet row h)).length := by
    unfold colStatsFor
    rw [colStats_sum_fold]
    simp [ColStats.init]
  refine ⟨heq, ?_, ?_⟩
  · rw [heq]
    exact Nat.mul_le_mul_left _ hfle
  · intro hone
    rw [heq, hone, one_mul]
    exact hfle

/-- C3 witness: for a once-occurring label, the amended theorem instantiates
to the original `min 100 N` cap at a concrete input. -/
theorem c3_profiler_partition_witness :
    (colStatsFor [[("A", "7")]] ["A"] "A").priceCount +
      (colStatsFor [[("A", "7")]] ["A"] "A").textCount +
      (colStatsFor [[("A", "7")]] ["A"] "A").emptyCount ≤
      min 100 ([[("A", "7")]] : List Row).length :=
  (c3_profiler_partition [[("A", "7")]] ["A"] "A").2.2 (by decide)

theorem validate_eq_filter (l : List RawProduct) :
    validateAndSanitizeProducts l = l.filter isValidProduct := by
  have hgen : ∀ acc : List RawProduct,
      l.foldl (fun acc p => if isValidProduct p then acc ++ [p] else acc) acc =
        acc ++ l.filter isValidProduct := by
    induction l with
    | nil => intro acc; simp
    | cons a t ih =>
      intro acc
      simp only [List.foldl_cons, List.filter_cons]
      by_cases hv : isValidProduct a = true
      · simp [hv, ih]
      · simp [hv, ih]
  simpa using hgen []

/-- C6: the response validator keeps exactly the schema-valid elements of the
raw AI array, in order, silently dropping the rest; and whenever the raw
array is non-empty but no element survives, the request fails with the 500
validation-failure envelope instead of returning an empty success; when
anything survives, the surviving list is returned with 200. -/
theorem c6_ai_validation (raw : List RawProduct) :
    validateAndSanitizeProducts raw = raw.filter isValidProduct ∧
    (raw ≠ [] → validateAndSanitizeProducts raw = [] → serveAiValidation raw = (500, [])) ∧
    (validateAndSanitizeProducts raw ≠ [] →
      serveAiValidation raw = (200, validateAndSanitizeProducts raw)) := by
  refine ⟨validate_eq_filter raw, ?_, ?_⟩
  · intro hne hz
    unfold serveAiValidation
    rw [hz]
    simp [List.length_pos.mpr hne]
  · intro hnz
    unfold serveAiValidation
    have hlen : ¬(validateAndSanitizeProducts raw).length = 0 := by
      simpa [List.length_eq_zero] using hnz
    simp [hlen]

/-- C6 witness: a concrete 10-element raw AI array with 3 schema-invalid
records (a negative price, a missing name, a fractional stock quantity)
yields exactly the 7 valid ones; an all-invalid non-empty array yields the
500 validation failure. -/
theorem c6_ai_validation_witness :
    (validateAndSanitizeProducts
      [{ name := some "P1" }, { name := some "P2" },
       { name := some "B1", selling_price := some ⟨-5, 0⟩ },
       { name := some "P3" }, { name := none },
       { name := some "P4" }, { name := some "P5" },
       { name := some "B3", stock_qty := some ⟨25, 1⟩ },
       { name := some "P6" }, { name := some "P7" }]).length = 7 ∧
    serveAiValidation [{ name := none }] = (500, []) := by
  constructor
  · rw [(c6_ai_validation _).1]
    decide
  · exact (c6_ai_validation _).2.1 (by decide) (by decide)

/-- C8: both body paths enforce the 500 KiB limit with a 413 rejection: an
oversize multipart binary and an oversize inline JSON text are both mapped to
`payloadTooLarge` by the dispatch stage.  Structurally the size check
precedes extraction: `runCsvStage` — the only way to reach the CSV extractor
or the AI fallback — is invoked only on the non-oversize branches of
`dispatchRequest`. -/
theorem c8_payload_limit (fileName : String) (byteLength : Nat)
    (textContent fileContent : String) (fileType : Option String)
    (hbin : byteLength > MAX_FILE_SIZE) (hjson : fileContent.length > MAX_FILE_SIZE) :
    dispatchRequest (.multipart fileName byteLength textContent) = .payloadTooLarge ∧
    dispatchRequest (.json (some fileContent) fileType) = .payloadTooLarge := by
  constructor
  · simp only [dispatchRequest]
    rw [if_pos hbin]
  · simp only [dispatchRequest, Option.getD_some]
    rw [if_pos ⟨Option.some_ne_none _, hjson⟩]

/-- C8 witness: a 512001-byte multipart upload and a 512001-character inline
JSON body are both rejected with the 413 outcome. -/
theorem c8_payload_limit_witness :
    dispatchRequest (.multipart "list.csv" 512001 "") = .payloadTooLarge ∧
    dispatchRequest (.json (some ⟨List.replicate 512001 'a'⟩) none) = .payloadTooLarge :=
  c8_payload_limit "list.csv" 512001 "" ⟨List.replicate 512001 'a'⟩ none
    (by decide)
    (by
      have h : (⟨List.replicate 512001 'a'⟩ : String).length = 512001 := by
        show (List.replicate 512001 'a').length = 512001
        rw [List.length_replicate]
      rw [h, MAX_FILE_SIZE]
      norm_num)

theorem toNumber_some_leb {v : Option String} {q : JsNum}
    (h : toNumber v = some q) : JsNum.leb ⟨0, 0⟩ q = true := by
  simp only [toNumber] at h
  split at h
  · exact absurd h (by simp)
  · split at h
    · exact absurd h (by simp)
    · split at h
      · exact absurd h (by simp)
      · split at h
        · rename_i hleb
          injection h with h'
          subst h'
          exact hleb
        · exact absurd h (by simp)

theorem toNumber_nonneg {v : Option String} {q : JsNum}
    (h : toNumber v = some q) : 0 ≤ q.toRat := by
  have hleb := (JsNum.leb_iff ⟨0, 0⟩ q).mp (toNumber_some_leb h)
  simpa [JsNum.toRat] using hleb

theorem toInt_nonneg {v : Option String} {z : Int} (h : toInt v = some z) : 0 ≤ z := by
  simp only [toInt] at h
  split at h
  · exact absurd h (by simp)
  · rename_i n hn
    injection h with h'
    subst h'
    have hleb := toNumber_some_leb hn
    simp only [JsNum.leb, decide_eq_true_eq] at hleb
    have hm : 0 ≤ n.mantissa := by simpa using hleb
    exact Int.tdiv_nonneg hm (by positivity)

theorem mem_tryExtract {content : String} {p : CandidateProduct}
    (hp : p ∈ tryExtractProductsFromCsv content) :
    ∃ cols r, buildProduct cols r = some p := by
  simp only [tryExtractProductsFromCsv] at hp
  split at hp
  · simp at hp
  · split at hp
    · simp at hp
    · split at hp
      · simp at hp
      · rw [List.mem_filterMap] at hp
        obtain ⟨r, _, hb⟩ := hp
        exact ⟨_, r, hb⟩

theorem buildProduct_some {cols : ResolvedColumns} {r : Row} {p : CandidateProduct}
    (h : buildProduct cols r = some p) :
    p.purchase_price = cols.hPurchase.bind (fun hh => toNumber (rowGet r hh)) ∧
    p.selling_price = cols.hSelling.bind (fun hh => toNumber (rowGet r hh)) ∧
    p.mrp_price = cols.hMrp.bind (fun hh => toNumber (rowGet r hh)) ∧
    p.without_tax_price = cols.hWithoutTax.bind (fun hh => toNumber (rowGet r hh)) ∧
    p.stock_qty = cols.hQty.bind (fun hh => toInt (rowGet r hh)) := by
  simp only [buildProduct] at h
  split at h
  · exact absurd h (by simp)
  · split at h
    · exact absurd h (by simp)
    · split at h
      · exact absurd h (by simp)
      · injection h with h'
        subst h'
        exact ⟨rfl, rfl, rfl, rfl, rfl⟩

theorem optField_nonneg {ho : Option String} {r : Row} {q : JsNum}
    (h : ho.bind (fun hh => toNumber (rowGet r hh)) = some q) : 0 ≤ q.toRat := by
  rcases Option.bind_eq_some.mp h with ⟨hh, _, h2⟩
  exact toNumber_nonneg h2

/-- C9: every candidate product emitted by the CSV fast path has all present
numeric fields non-negative: `toNumber` maps every negative numeric input to
null (and `toInt` propagates that null), so the direct path can never emit a
negative price or stock quantity, matching the AI-validated path's schema. -/
theorem c9_csv_nonneg (content : String) (p : CandidateProduct)
    (hp : p ∈ tryExtractProductsFromCsv content) :
    (∀ q, p.purchase_price = some q → 0 ≤ q.toRat) ∧
    (∀ q, p.selling_price = some q → 0 ≤ q.toRat) ∧
    (∀ q, p.mrp_price = some q → 0 ≤ q.toRat) ∧
    (∀ q, p.without_tax_price = some q → 0 ≤ q.toRat) ∧
    (∀ z, p.stock_qty = some z → 0 ≤ z) := by
  obtain ⟨cols, r, hb⟩ := mem_tryExtract hp
  obtain ⟨h1, h2, h3, h4, h5⟩ := buildProduct_some hb
  refine ⟨?_, ?_, ?_, ?_, ?_⟩
  · intro q hq
    rw [h1] at hq
    exact optField_nonneg hq
  · intro q hq
    rw [h2] at hq
    exact optField_nonneg hq
  · intro q hq
    rw [h3] at hq
    exact optField_nonneg hq
  · intro q hq
    rw [h4] at hq
    exact optField_nonneg hq
  · intro z hz
    rw [h5] at hz
    rcases Option.bind_eq_some.mp hz with ⟨hh, _, hzz⟩
    exact toInt_nonneg hzz

/-- C9 witness: the product the extractor emits for a concrete CSV carries a
selling price, and by the invariant that price is non-negative. -/
theorem c9_csv_nonneg_witness : (0 : Rat) ≤ (⟨10, 0⟩ : JsNum).toRat :=
  (c9_csv_nonneg "Name,Price\nWidget,10\nGadget,20"
      { name := "Widget", product_id := none, category := none, supplier := none,
        purchase_price := some ⟨10, 0⟩, selling_price := some ⟨10, 0⟩,
        mrp_price := some ⟨10, 0⟩, without_tax_price := some ⟨10, 0⟩, stock_qty := none,
        unit := none, barcode := none, item_code := none, description := none,
        packing_inner := none, packing_final_price := some "10" }
      (by decide)).2.1 ⟨10, 0⟩ rfl

/-- C10: when the headerless parse yields fewer than 2 non-empty rows the
extractor returns the empty list, so a file made of a single non-empty line —
even a valid product row — can never succeed on the CSV fast path; the
handler's CSV stage then proceeds to the AI fallback. -/
theorem c10_short_parse (content : String)
    (h : (papaParseRaw content).length < 2) :
    tryExtractProductsFromCsv content = [] ∧
    runCsvStage "csv" content = .aiFallback := by
  have hempty : tryExtractProductsFromCsv content = [] := by
    simp only [tryExtractProductsFromCsv]
    rw [if_pos h]
  refine ⟨hempty, ?_⟩
  simp [runCsvStage, hempty]

/-- C10 witness: the single-line file "Widget,10" parses to one raw row, is
rejected by the CSV fast path, and falls through to the AI call. -/
theorem c10_short_parse_witness :
    tryExtractProductsFromCsv "Widget,10" = [] ∧
    runCsvStage "csv" "Widget,10" = HandlerOutcome.aiFallback :=
  c10_short_parse "Widget,10" (by decide)

end ParseWholesale
